import Mathlib

/-!
Verification development for the jrnl command-line journal
(src/jrnl/jrnl.py).  The Python source is shallowly embedded: each
entry is kept as raw data, journal state is passed explicitly, and the
side effects of the command-line driver are recorded as an explicit
event trace.  Definitions are translated from the source; the parts of
the repository that live in the missing Journal module are modelled
from the specification and marked as such in their doc comments.
-/

namespace Jrnl

/-! ### Tag report (print_tags, src/jrnl/jrnl.py lines 107-123)

An entry is represented by the list of tags attached to it (the only
field print_tags reads).  Python set(entry.tags) is modelled by
List.dedup; the set of (count, tag) pairs by dedup of the pair list;
Python sorted by an insertion sort for the lexicographic order on
(count, tag), which agrees with Python tuple comparison.
-/

/-- Lexicographic comparison of character lists by code point, the order
Python uses on strings. -/
def charListLe : List Char → List Char → Bool
  | [], _ => true
  | _ :: _, [] => false
  | a :: as, b :: bs => if a < b then true else if b < a then false else charListLe as bs

/-- String comparison by code points, as Python compares strings. -/
def strLe (a b : String) : Prop :=
  charListLe a.data b.data = true

instance (a b : String) : Decidable (strLe a b) :=
  inferInstanceAs (Decidable (charListLe a.data b.data = true))

/-- Lexicographic order on (count, tag) pairs, as Python compares tuples:
first the count, then the tag string. -/
def pairLe (a b : Nat × String) : Prop :=
  a.1 < b.1 ∨ (a.1 = b.1 ∧ strLe a.2 b.2)

instance (a b : Nat × String) : Decidable (pairLe a b) :=
  inferInstanceAs (Decidable (a.1 < b.1 ∨ (a.1 = b.1 ∧ strLe a.2 b.2)))

/-- Insert a pair into a list sorted by pairLe. -/
def insertPair (x : Nat × String) : List (Nat × String) → List (Nat × String)
  | [] => [x]
  | y :: ys => if pairLe x y then x :: y :: ys else y :: insertPair x ys

/-- Sorting model for the Python built-in sorted on a collection of
distinct (count, tag) pairs. -/
def sortPairs : List (Nat × String) → List (Nat × String)
  | [] => []
  | x :: xs => insertPair x (sortPairs xs)

/-- Line 111-114 of the source: the flattened list of per-entry tag sets,
tags = [tag for entry in journal.entries for tag in set(entry.tags)]. -/
def journalTags (entries : List (List String)) : List String :=
  (entries.map List.dedup).flatten

/-- Line 116: tag_counts = set([(tags.count(tag), tag) for tag in tags]). -/
def tagCounts (entries : List (List String)) : List (Nat × String) :=
  ((journalTags entries).map
    (fun tag => ((journalTags entries).count tag, tag))).dedup

/-- Python min over the set of (count, tag) pairs (tuple order). -/
def minPair : List (Nat × String) → Option (Nat × String)
  | [] => none
  | x :: xs =>
    some (match minPair xs with
          | none => x
          | some m => if pairLe x m then x else m)

/-- Line 123 format string "\x7b0:20\x7d : \x7b1\x7d": the tag padded to
width 20, then a colon, then the count. -/
def formatTagLine (tag : String) (n : Nat) : String :=
  tag ++ String.mk (List.replicate (20 - tag.length) ' ') ++ " : " ++ toString n

/-- The (count, tag) pairs that reach the printing loop of print_tags, in
the order the loop visits them: the counts pass the filter of line 120
only when the branch of line 119 was taken, and the loop of line 122
iterates in sorted order. -/
def reportPairs (entries : List (List String)) : List (Nat × String) :=
  let tag_counts := tagCounts entries
  if tag_counts.isEmpty then sortPairs tag_counts
  else if ((minPair tag_counts).getD (0, "")).1 = 0 then
    sortPairs (tag_counts.filter fun x => 1 < x.1)
  else sortPairs tag_counts

/-- The lines print_tags prints: the notice of line 118 or 121 when its
branch is taken, then one formatted line per reported pair. -/
def printTagsLines (entries : List (List String)) : List String :=
  let tag_counts := tagCounts entries
  (if tag_counts.isEmpty then ["[No tags found in journal.]"]
   else if ((minPair tag_counts).getD (0, "")).1 = 0 then
     ["[Removed tags that appear only once.]"]
   else []) ++ (reportPairs entries).map fun p => formatTagLine p.2 p.1

/-! ### Command-line arguments and configuration

The argparse result (parse_args, src lines 38-60).  An argparse flag
with nargs of a question mark and default False is modelled by PyOpt:
absent, given without a value (const None), or given with a filename.
-/

/-- Value of the encrypt and decrypt arguments: default False when absent,
None when given bare, a string when given a filename. -/
inductive PyOpt where
  | notGiven
  | inPlace
  | toFile (s : String)
deriving DecidableEq, Repr

/-- Python falsiness of such a value: False, None and the empty string are
falsy. -/
def pyFalsy : PyOpt → Bool
  | .notGiven => true
  | .inPlace => true
  | .toFile s => s == ""

/-- The filename carried by an encrypt or decrypt argument, if any. -/
def PyOpt.toFilename : PyOpt → Option String
  | .notGiven => none
  | .inPlace => none
  | .toFile s => some s

/-- The parsed command line (parse_args, src lines 38-60). -/
structure Args where
  date : Option String
  star : Bool
  text : List String
  start_date : Option String
  end_date : Option String
  strict : Bool
  limit : Option Int
  short : Bool
  tags : Bool
  json : Bool
  markdown : Bool
  encrypt : PyOpt
  decrypt : PyOpt
  delete_last : Bool
deriving DecidableEq, Repr

/-- The configuration the cli consumes (spec section 6): journal path,
encryption flag, transient password, editor command, tag symbols.  The
journals map of the source is modelled for a configuration whose map has
only the default entry, pointing at the journal path. -/
structure Config where
  journal : String
  encrypt : Bool
  password : String
  editor : String
  tagsymbols : String
deriving DecidableEq, Repr

/-- Python truthiness of an optional string: None and the empty string are
falsy. -/
def strTruthy : Option String → Bool
  | none => false
  | some s => s ≠ ""

/-- Python truthiness of the optional integer limit: None and 0 are falsy. -/
def intTruthy : Option Int → Bool
  | none => false
  | some n => n ≠ 0

/-- Python " ".join(args.text).split(): join the text arguments with
spaces, then split on whitespace runs, dropping empty pieces. -/
def textWords (text : List String) : List String :=
  ((String.intercalate " " text).split fun c => c.isWhitespace).filter fun w => w ≠ ""

/-! ### Mode dispatch (guess_mode, src lines 62-76) -/

/-- Condition of the first branch of guess_mode (src line 66), in source
order: args.json or args.decrypt is not False or args.encrypt is not
False or args.markdown or args.tags or args.delete_last. -/
def exportRequested (args : Args) : Prop :=
  args.json ∨ args.decrypt ≠ PyOpt.notGiven ∨ args.encrypt ≠ PyOpt.notGiven ∨
    args.markdown ∨ args.tags ∨ args.delete_last

instance (args : Args) : Decidable (exportRequested args) :=
  inferInstanceAs (Decidable (_ ∨ _ ∨ _ ∨ _ ∨ _ ∨ _))

/-- Condition of the second branch (src line 69): any reading argument is
truthy - args.start_date or args.end_date or args.limit or args.strict
or args.short. -/
def readingTruthy (args : Args) : Prop :=
  strTruthy args.start_date ∨ strTruthy args.end_date ∨ intTruthy args.limit ∨
    args.strict ∨ args.short

instance (args : Args) : Decidable (readingTruthy args) :=
  inferInstanceAs (Decidable (_ ∨ _ ∨ _ ∨ _ ∨ _))

/-- Condition of the third branch (src line 72): not args.date and
args.text and all words of the joined text start with a tag symbol. -/
def tagsOnlyText (args : Args) (config : Config) : Prop :=
  ¬ strTruthy args.date ∧ args.text ≠ [] ∧
    ∀ wd ∈ textWords args.text, wd.front ∈ config.tagsymbols.toList

instance (args : Args) (config : Config) : Decidable (tagsOnlyText args config) :=
  inferInstanceAs (Decidable (_ ∧ _ ∧ _))

/-- guess_mode (src lines 62-76): returns (compose, export). -/
def guess_mode (args : Args) (config : Config) : Bool × Bool :=
  if exportRequested args then (false, true)
  else if readingTruthy args then (false, false)
  else if tagsOnlyText args config then (false, false)
  else (true, false)

/-- The dispatch rule exactly as the claim about guess_mode words it,
reading "a flag is set" as the argument being present rather than
truthy; written from the claim for comparison with guess_mode. -/
def guessModeClaimed (args : Args) (config : Config) : Prop :=
  ((guess_mode args config).2 = true ↔ exportRequested args) ∧
  (exportRequested args → (guess_mode args config).1 = false) ∧
  (¬ exportRequested args →
    ((guess_mode args config).1 = false ↔
      ((args.start_date ≠ none ∨ args.end_date ≠ none ∨ args.limit ≠ none ∨
          args.strict ∨ args.short) ∨
        (args.date = none ∧ args.text ≠ [] ∧
          ∀ wd ∈ textWords args.text, wd.front ∈ config.tagsymbols.toList))))

instance (args : Args) (config : Config) : Decidable (guessModeClaimed args config) :=
  inferInstanceAs (Decidable (_ ∧ _ ∧ _))

/-! ### Journal state and the missing Journal module

The Journal module itself is not among the source files; its operations
used by the cli (parse, write, make_key, new_entry, filter) are modelled
from the specification, each marked in its doc comment.  An entry is
kept as its raw text block.
-/

/-- In-memory journal state: the entry sequence, the per-journal
configuration, and the password material the current key was derived
from (None until a key is made). -/
structure JState where
  entries : List String
  config : Config
  keyPassword : Option String
deriving DecidableEq, Repr

/-- Events the cli emits: user-visible messages, file writes, password
prompts and the persisted-configuration update.  A trace records their
order. -/
inductive Event where
  | configEncryptedAbort
  | journalCreated (path : String)
  | authFailedAbort
  | promptPassword (prompt : String)
  | entryAdded
  | printJournal
  | printTags
  | printJson
  | printMarkdown
  | cryptoUnavailableMsg
  | encryptedMsg (path : String)
  | decryptedMsg (path : String)
  | deletedEntry (entry : String)
  | write (path : String) (encrypted : Bool) (entries : List String)
  | saveConfig (encrypt : Bool) (password : String)
  | emptyPopError
deriving DecidableEq, Repr

/-- The world outside the journal state: the journal file (None when
absent), the text obtained from the editor or interactive prompt, the
password the user enters at a password prompt, and whether that password
decrypts the journal. -/
structure World where
  file : Option String
  inputText : String
  promptedPassword : String
  passwordCorrect : Bool
deriving DecidableEq, Repr

/-- touch_journal (src lines 126-130): when the journal file does not
exist, announce and create it empty; otherwise leave it as it is. -/
def touch_journal (file : Option String) (filename : String) : List Event × Option String :=
  match file with
  | none => ([Event.journalCreated filename], some "")
  | some c => ([], some c)

/-- Split a character list at newline characters (the pieces, in order,
without the separators). -/
def splitNl : List Char → List (List Char)
  | [] => [[]]
  | c :: cs =>
    let r := splitNl cs
    if c = '\n' then [] :: r else (c :: r.headD []) :: r.tail

/-- The lines of a text, as Python splits on the newline character. -/
def textLines (raw : String) : List String :=
  (splitNl raw.data).map String.mk

/-- Modelled from the spec: Journal.parse splits raw text on date-header
boundary lines (a line recognized by isHeader begins a new entry) and
accumulates the following lines as that entry, leniently dropping text
before the first header; empty content yields an empty entry sequence.
The Journal module holding parse is not among the source files. -/
def parse (isHeader : String → Bool) (raw : String) : List String :=
  if raw = "" then []
  else
    let step : List String × Option String → String → List String × Option String :=
      fun acc line =>
        if isHeader line then (acc.1 ++ acc.2.toList, some line)
        else
          match acc.2 with
          | none => acc
          | some cur => (acc.1, some (cur ++ "\n" ++ line))
    let fin := (textLines raw).foldl step ([], none)
    fin.1 ++ fin.2.toList

/-- Modelled from the spec: constructing the Journal (src line 177) opens
the journal file; when the encryption flag is set the contents are
decrypted with the password the user enters, and a wrong password is
fatal for the invocation; the plain text is then parsed into the entry
sequence.  The decrypted text is modelled as the file contents. -/
def loadJournal (isHeader : String → Bool) (w : World) (config : Config)
    (content : String) : List Event × Option JState :=
  if config.encrypt then
    if w.passwordCorrect then ([], some ⟨parse isHeader content, config, none⟩)
    else ([Event.authFailedAbort], none)
  else ([], some ⟨parse isHeader content, config, none⟩)

/-- Python filename or config journal path: the write target defaults to
the configured journal file when the filename is None or empty. -/
def orJournal (filename : Option String) (config : Config) : String :=
  match filename with
  | none => config.journal
  | some s => if s = "" then config.journal else s

/-- Modelled from the spec: Journal.write(filename) serializes the entry
sequence and persists it to the target path, encrypting first when the
encryption flag is set; the write event records target, flag and the
entries written. -/
def writeJ (j : JState) (filename : Option String) : Event :=
  Event.write (orJournal filename j.config) j.config.encrypt j.entries

/-- Modelled from the spec: Journal.make_key derives the symmetric key
from the stored password, prompting the user for one when none is
stored; keyPassword records the password material the key came from. -/
def make_key (w : World) (j : JState) (prompt : String) : List Event × JState :=
  if j.config.password = "" then
    ([Event.promptPassword prompt], { j with keyPassword := some w.promptedPassword })
  else
    ([], { j with keyPassword := some j.config.password })

/-- encrypt (src lines 92-98): clear the stored password, make a key with
the new-password prompt, set the encryption flag, write, announce. -/
def encryptOp (w : World) (j : JState) (filename : Option String) : List Event × JState :=
  let j1 : JState := { j with config := { j.config with password := "" } }
  let km := make_key w j1 "Enter new password:"
  let j3 : JState := { km.2 with config := { km.2.config with encrypt := true } }
  (km.1 ++ [writeJ j3 filename, Event.encryptedMsg (orJournal filename j3.config)], j3)

/-- decrypt (src lines 100-105): clear the encryption flag and the stored
password, write, announce. -/
def decryptOp (j : JState) (filename : Option String) : List Event × JState :=
  let j1 : JState := { j with config := { j.config with encrypt := false, password := "" } }
  ([writeJ j1 filename, Event.decryptedMsg (orJournal filename j1.config)], j1)

/-- Modelled from the spec: Journal.new_entry(raw, date) creates an Entry
from the raw text (title and body split and date resolution are internal
to the missing module) and appends it to the entry sequence; the entry
is kept as its raw text. -/
def new_entry (j : JState) (raw : String) : JState :=
  { j with entries := j.entries ++ [raw] }

/-- The mode-dependent part of cli after the journal is loaded (src lines
181-239).  Returns the events it emits and the final journal state.  The
text from the editor or the interactive prompt is w.inputText; filtering
in reading mode produces a read-only view per the spec, so it leaves the
entries unchanged and is recorded as the printJournal event. -/
def cliBody (w : World) (args : Args) (modes : Bool × Bool) (pycrypto : Bool)
    (j : JState) : List Event × JState :=
  let tc := if modes.1 ∧ args.text = [] then
    (if w.inputText ≠ "" then [w.inputText] else args.text,
     if w.inputText ≠ "" then modes.1 else false)
  else (args.text, modes.1)
  if tc.2 then
    let raw := (String.intercalate " " tc.1).trim
    let j2 := new_entry j raw
    ([Event.entryAdded, writeJ j2 none], j2)
  else if ¬ modes.2 then
    ([Event.printJournal], j)
  else if args.tags then ([Event.printTags], j)
  else if args.json then ([Event.printJson], j)
  else if args.markdown then ([Event.printMarkdown], j)
  else if (args.encrypt ≠ PyOpt.notGiven ∨ args.decrypt ≠ PyOpt.notGiven) ∧ ¬ pycrypto then
    ([Event.cryptoUnavailableMsg], j)
  else if args.encrypt ≠ PyOpt.notGiven then
    let eo := encryptOp w j args.encrypt.toFilename
    (eo.1 ++ (if pyFalsy args.encrypt then [Event.saveConfig true ""] else []), eo.2)
  else if args.decrypt ≠ PyOpt.notGiven then
    let dc := decryptOp j args.decrypt.toFilename
    (dc.1 ++ (if pyFalsy args.decrypt then [Event.saveConfig false ""] else []), dc.2)
  else if args.delete_last then
    match j.entries.getLast? with
    | none => ([Event.emptyPopError], j)
    | some last =>
      let j2 : JState := { j with entries := j.entries.dropLast }
      ([Event.deletedEntry last, writeJ j2 none], j2)
  else ([], j)

/-- The arguments after the journal-name lookup of src lines 160-163, for
a configuration whose journals map has only the default entry: when the
first text argument names it, that argument is consumed (an argv string
is never identical to the interned literal, so a successful lookup
always strips). -/
def effArgs (args0 : Args) : Args :=
  if args0.text.head? = some "default" then { args0 with text := args0.text.tail }
  else args0

/-- Result of one cli invocation: the event trace, the journal file right
after the touch step, the entry sequence as loaded, and the final
journal state (None when the invocation aborted before loading). -/
structure CliResult where
  trace : List Event
  fileAfterTouch : Option String
  loaded : List String
  journal : Option JState
deriving DecidableEq, Repr

/-- cli (src lines 139-239) for a configuration whose journals map has
only the default entry: abort when the configured journal is encrypted
without the crypto library (src lines 152-154); strip a first text
argument naming a journal (src lines 160-163, an argv string is never
identical to the interned literal, so a successful lookup always
strips); touch the journal file; guess the mode; load the journal; then
run the mode-dependent body.  Configuration loading, install and the
DayOne directory variant are outside the modelled configurations. -/
def cli (isHeader : String → Bool) (pycrypto : Bool) (config : Config)
    (args0 : Args) (w : World) : CliResult :=
  if config.encrypt ∧ ¬ pycrypto then
    { trace := [Event.configEncryptedAbort], fileAfterTouch := w.file,
      loaded := [], journal := none }
  else
    let args := effArgs args0
    let tj := touch_journal w.file config.journal
    let modes := guess_mode args config
    let lj := loadJournal isHeader w config (tj.2.getD "")
    match lj.2 with
    | none => { trace := tj.1 ++ lj.1, fileAfterTouch := tj.2, loaded := [], journal := none }
    | some j =>
      let body := cliBody w args modes pycrypto j
      { trace := tj.1 ++ lj.1 ++ body.1, fileAfterTouch := tj.2,
        loaded := j.entries, journal := some body.2 }

/-! ### Concrete inputs used to instantiate the theorems -/

/-- A header recognizer treating every nonempty line as an entry header;
the header grammar is an implementation choice of the missing module. -/
def hdrNonempty : String → Bool := fun l => l != ""

/-- A plaintext single-journal configuration. -/
def cfgPlain : Config :=
  { journal := "journal.txt", encrypt := false, password := "", editor := "",
    tagsymbols := "@" }

/-- The same configuration with the encryption flag set. -/
def cfgEnc : Config := { cfgPlain with encrypt := true }

/-- A command line with nothing given. -/
def argsNone : Args :=
  { date := none, star := false, text := [], start_date := none, end_date := none,
    strict := false, limit := none, short := false, tags := false, json := false,
    markdown := false, encrypt := PyOpt.notGiven, decrypt := PyOpt.notGiven,
    delete_last := false }

/-- Bare encrypt request. -/
def argsEncrypt : Args := { argsNone with encrypt := PyOpt.inPlace }

/-- Bare decrypt request. -/
def argsDecrypt : Args := { argsNone with decrypt := PyOpt.inPlace }

/-- Decrypt to a separate file. -/
def argsDecryptFile : Args := { argsNone with decrypt := PyOpt.toFile "plain.txt" }

/-- Delete-last request. -/
def argsDeleteLast : Args := { argsNone with delete_last := true }

/-- A limit argument set to zero. -/
def argsLimitZero : Args := { argsNone with limit := some 0 }

/-- A world where the journal file is absent. -/
def wAbsent : World :=
  { file := none, inputText := "", promptedPassword := "new-pw", passwordCorrect := true }

/-- A world where the journal file holds two entries (every nonempty line
is a header for hdrNonempty). -/
def wTwo : World :=
  { file := some "a\nb", inputText := "", promptedPassword := "new-pw",
    passwordCorrect := true }

/-! ### Helper lemmas: the order on (count, tag) pairs and the sort -/

theorem charListLe_total : ∀ x y : List Char, charListLe x y = true ∨ charListLe y x = true
  | [], _ => Or.inl rfl
  | _ :: _, [] => Or.inr rfl
  | a :: as, b :: bs => by
    by_cases hab : a < b
    · left; simp [charListLe, hab]
    · by_cases hba : b < a
      · right; simp [charListLe, hba]
      · rcases charListLe_total as bs with h | h
        · left; simp [charListLe, hab, hba, h]
        · right; simp [charListLe, hab, hba, h]

theorem charListLe_trans :
    ∀ x y z : List Char, charListLe x y = true → charListLe y z = true →
      charListLe x z = true
  | [], _, _, _, _ => rfl
  | _ :: _, [], _, h1, _ => by simp [charListLe] at h1
  | _ :: _, _ :: _, [], _, h2 => by simp [charListLe] at h2
  | a :: as, b :: bs, c :: cs, h1, h2 => by
    by_cases hbc : b < c
    · by_cases hab : a < b
      · simp [charListLe, lt_trans hab hbc]
      · by_cases hba : b < a
        · simp [charListLe, hab, hba] at h1
        · have hac : a < c := by
            have hab2 : a = b := le_antisymm (not_lt.mp hba) (not_lt.mp hab)
            rw [hab2]; exact hbc
          simp [charListLe, hac]
    · by_cases hcb : c < b
      · simp [charListLe, hbc, hcb] at h2
      · have hbc2 : b = c := le_antisymm (not_lt.mp hcb) (not_lt.mp hbc)
        have h2' : charListLe bs cs = true := by simpa [charListLe, hbc, hcb] using h2
        by_cases hab : a < b
        · have hac : a < c := by rw [← hbc2]; exact hab
          simp [charListLe, hac]
        · by_cases hba : b < a
          · simp [charListLe, hab, hba] at h1
          · have h1' : charListLe as bs = true := by simpa [charListLe, hab, hba] using h1
            have hac : ¬ a < c := by rw [← hbc2]; exact hab
            have hca : ¬ c < a := by rw [← hbc2]; exact hba
            simp [charListLe, hac, hca, charListLe_trans as bs cs h1' h2']

theorem pairLe_total (a b : Nat × String) : pairLe a b ∨ pairLe b a := by
  rcases Nat.lt_trichotomy a.1 b.1 with h | h | h
  · exact Or.inl (Or.inl h)
  · rcases charListLe_total a.2.data b.2.data with h2 | h2
    · exact Or.inl (Or.inr ⟨h, h2⟩)
    · exact Or.inr (Or.inr ⟨h.symm, h2⟩)
  · exact Or.inr (Or.inl h)

theorem pairLe_trans {a b c : Nat × String} (h1 : pairLe a b) (h2 : pairLe b c) :
    pairLe a c := by
  rcases h1 with h1 | ⟨h1e, h1s⟩ <;> rcases h2 with h2 | ⟨h2e, h2s⟩
  · exact Or.inl (lt_trans h1 h2)
  · exact Or.inl (h2e ▸ h1)
  · exact Or.inl (h1e ▸ h2)
  · exact Or.inr ⟨h1e.trans h2e, charListLe_trans _ _ _ h1s h2s⟩

theorem mem_insertPair {x z : Nat × String} (l : List (Nat × String))
    (h : z ∈ insertPair x l) : z = x ∨ z ∈ l := by
  induction l with
  | nil =>
    simp only [insertPair, List.mem_singleton] at h
    exact Or.inl h
  | cons y ys ih =>
    simp only [insertPair] at h
    by_cases hp : pairLe x y
    · rw [if_pos hp] at h
      rcases List.mem_cons.mp h with h | h
      · exact Or.inl h
      · exact Or.inr h
    · rw [if_neg hp] at h
      rcases List.mem_cons.mp h with h | h
      · exact Or.inr (h ▸ List.mem_cons_self y ys)
      · rcases ih h with h | h
        · exact Or.inl h
        · exact Or.inr (List.mem_cons_of_mem y h)

theorem pairwise_insertPair {x : Nat × String} {l : List (Nat × String)}
    (hl : l.Pairwise pairLe) : (insertPair x l).Pairwise pairLe := by
  induction l with
  | nil => simp [insertPair]
  | cons y ys ih =>
    rw [List.pairwise_cons] at hl
    obtain ⟨hy, hys⟩ := hl
    by_cases h : pairLe x y
    · rw [insertPair, if_pos h, List.pairwise_cons]
      refine ⟨?_, List.pairwise_cons.mpr ⟨hy, hys⟩⟩
      intro z hz
      rcases List.mem_cons.mp hz with hzy | hz
      · rw [hzy]; exact h
      · exact pairLe_trans h (hy z hz)
    · rw [insertPair, if_neg h, List.pairwise_cons]
      refine ⟨?_, ih hys⟩
      intro z hz
      rcases mem_insertPair _ hz with hzx | hz
      · rw [hzx]; exact (pairLe_total x y).resolve_left h
      · exact hy z hz

theorem sortPairs_pairwise (l : List (Nat × String)) : (sortPairs l).Pairwise pairLe := by
  induction l with
  | nil => simp [sortPairs]
  | cons x xs ih => exact pairwise_insertPair ih

/-! ### Helper lemmas: tag counting -/

theorem count_journalTags (entries : List (List String)) (tag : String) :
    (journalTags entries).count tag = (entries.filter fun e => tag ∈ e).length := by
  induction entries with
  | nil => simp [journalTags]
  | cons e es ih =>
    have hj : journalTags (e :: es) = e.dedup ++ journalTags es := by
      simp [journalTags]
    rw [hj, List.count_append, List.count_dedup, List.filter_cons]
    by_cases h : tag ∈ e <;> simp [h, ih, Nat.add_comm]

theorem mem_journalTags {entries : List (List String)} {tag : String} :
    tag ∈ journalTags entries ↔ ∃ e ∈ entries, tag ∈ e := by
  simp [journalTags, List.mem_flatten]

theorem filter_length_pos {entries : List (List String)} {tag : String} :
    0 < (entries.filter fun e => tag ∈ e).length ↔ ∃ e ∈ entries, tag ∈ e := by
  rw [List.length_pos_iff_exists_mem]
  constructor
  · rintro ⟨e, he⟩
    have := List.mem_filter.mp he
    exact ⟨e, this.1, by simpa using this.2⟩
  · rintro ⟨e, he, ht⟩
    exact ⟨e, List.mem_filter.mpr ⟨he, by simpa using ht⟩⟩

/-! ### Helper lemmas: the cli pipeline -/

@[simp] theorem effArgs_tags (args : Args) : (effArgs args).tags = args.tags := by
  unfold effArgs; split <;> rfl

@[simp] theorem effArgs_json (args : Args) : (effArgs args).json = args.json := by
  unfold effArgs; split <;> rfl

@[simp] theorem effArgs_markdown (args : Args) : (effArgs args).markdown = args.markdown := by
  unfold effArgs; split <;> rfl

@[simp] theorem effArgs_encrypt (args : Args) : (effArgs args).encrypt = args.encrypt := by
  unfold effArgs; split <;> rfl

@[simp] theorem effArgs_decrypt (args : Args) : (effArgs args).decrypt = args.decrypt := by
  unfold effArgs; split <;> rfl

@[simp] theorem effArgs_delete_last (args : Args) :
    (effArgs args).delete_last = args.delete_last := by
  unfold effArgs; split <;> rfl

theorem guess_mode_export {args : Args} (config : Config) (h : exportRequested args) :
    guess_mode args config = (false, true) := by
  unfold guess_mode
  rw [if_pos h]

theorem touch_no_write (file : Option String) (filename p : String) (b : Bool)
    (es : List String) : Event.write p b es ∉ (touch_journal file filename).1 := by
  cases file <;> simp [touch_journal]

theorem touch_no_saveConfig (file : Option String) (filename : String) (b : Bool)
    (p : String) : Event.saveConfig b p ∉ (touch_journal file filename).1 := by
  cases file <;> simp [touch_journal]

theorem touch_no_entryAdded (file : Option String) (filename : String) :
    Event.entryAdded ∉ (touch_journal file filename).1 := by
  cases file <;> simp [touch_journal]

/-- When the configured encryption is usable and the password is right,
one cli invocation is the touch step, the load of the touched file, and
the mode-dependent body on the loaded journal. -/
theorem cli_run (isHeader : String → Bool) (pycrypto : Bool) (config : Config)
    (args : Args) (w : World)
    (hpc : config.encrypt = true → pycrypto = true)
    (hauth : config.encrypt = true → w.passwordCorrect = true) :
    cli isHeader pycrypto config args w =
      { trace := (touch_journal w.file config.journal).1 ++
          (cliBody w (effArgs args) (guess_mode (effArgs args) config) pycrypto
            ⟨parse isHeader (((touch_journal w.file config.journal).2).getD ""),
             config, none⟩).1,
        fileAfterTouch := (touch_journal w.file config.journal).2,
        loaded := parse isHeader (((touch_journal w.file config.journal).2).getD ""),
        journal := some (cliBody w (effArgs args) (guess_mode (effArgs args) config)
          pycrypto
          ⟨parse isHeader (((touch_journal w.file config.journal).2).getD ""),
           config, none⟩).2 } := by
  have hload : loadJournal isHeader w config
      (((touch_journal w.file config.journal).2).getD "") =
      ([], some ⟨parse isHeader (((touch_journal w.file config.journal).2).getD ""),
        config, none⟩) := by
    unfold loadJournal
    by_cases hce : config.encrypt = true
    · rw [if_pos hce, if_pos (hauth hce)]
    · rw [if_neg hce]
  unfold cli
  rw [if_neg ?hneg]
  case hneg =>
    rintro ⟨h1, h2⟩
    exact h2 (hpc h1)
  dsimp only
  rw [hload]
  simp

/-- cliBody in the mode reached by an export request whose tags, json and
markdown flags are off while the crypto library is missing: the single
crypto-unavailable message, journal unchanged. -/
theorem cliBody_crypto_unavailable {w : World} {args : Args} {pycrypto : Bool}
    {j : JState} (modes : Bool × Bool)
    (hm1 : modes.1 = false) (hm2 : modes.2 = true) (hpc : pycrypto = false)
    (hgiven : args.encrypt ≠ PyOpt.notGiven ∨ args.decrypt ≠ PyOpt.notGiven)
    (htags : args.tags = false) (hjson : args.json = false)
    (hmd : args.markdown = false) :
    cliBody w args modes pycrypto j = ([Event.cryptoUnavailableMsg], j) := by
  obtain ⟨m1, m2⟩ := modes
  dsimp only at hm1 hm2
  subst hm1; subst hm2; subst hpc
  simp [cliBody, htags, hjson, hmd, hgiven]

/-- cliBody in the delete-last branch: pop fails on an empty sequence and
nothing is written; otherwise the last entry is removed, announced and
the remaining entries written to the journal file. -/
theorem cliBody_delete_last {w : World} {args : Args} {pycrypto : Bool} {j : JState}
    (modes : Bool × Bool) (hm1 : modes.1 = false) (hm2 : modes.2 = true)
    (htags : args.tags = false) (hjson : args.json = false) (hmd : args.markdown = false)
    (he : args.encrypt = PyOpt.notGiven) (hd : args.decrypt = PyOpt.notGiven)
    (hdl : args.delete_last = true) :
    cliBody w args modes pycrypto j =
      match j.entries.getLast? with
      | none => ([Event.emptyPopError], j)
      | some last =>
        ([Event.deletedEntry last,
          Event.write j.config.journal j.config.encrypt j.entries.dropLast],
         { j with entries := j.entries.dropLast }) := by
  obtain ⟨m1, m2⟩ := modes
  dsimp only at hm1 hm2
  subst hm1; subst hm2
  cases hl : j.entries.getLast? <;>
    simp [cliBody, htags, hjson, hmd, he, hd, hdl, hl, writeJ, orJournal]

/-- cliBody in the encrypt branch with the crypto library present: the
stored password is cleared, the new-password prompt fires, the key is
made from the prompted password, the entries are written with the flag
set, and for a falsy filename the persisted configuration is saved. -/
theorem cliBody_encrypt {w : World} {args : Args} {pycrypto : Bool} {j : JState}
    (modes : Bool × Bool) (hm1 : modes.1 = false) (hm2 : modes.2 = true)
    (hpc : pycrypto = true)
    (htags : args.tags = false) (hjson : args.json = false) (hmd : args.markdown = false)
    (he : args.encrypt ≠ PyOpt.notGiven) :
    cliBody w args modes pycrypto j =
      ([Event.promptPassword "Enter new password:",
        Event.write (orJournal args.encrypt.toFilename
            { j.config with encrypt := true, password := "" }) true j.entries,
        Event.encryptedMsg (orJournal args.encrypt.toFilename
            { j.config with encrypt := true, password := "" })] ++
        (if pyFalsy args.encrypt then [Event.saveConfig true ""] else []),
       { j with config := { j.config with encrypt := true, password := "" },
                keyPassword := some w.promptedPassword }) := by
  obtain ⟨m1, m2⟩ := modes
  dsimp only at hm1 hm2
  subst hm1; subst hm2; subst hpc
  simp [cliBody, htags, hjson, hmd, he, encryptOp, make_key, writeJ]

/-- cliBody in the decrypt branch with the crypto library present: the
encryption flag and the stored password are cleared, the entries are
written in plain text, and for a falsy filename the persisted
configuration is saved. -/
theorem cliBody_decrypt {w : World} {args : Args} {pycrypto : Bool} {j : JState}
    (modes : Bool × Bool) (hm1 : modes.1 = false) (hm2 : modes.2 = true)
    (hpc : pycrypto = true)
    (htags : args.tags = false) (hjson : args.json = false) (hmd : args.markdown = false)
    (he : args.encrypt = PyOpt.notGiven) (hd : args.decrypt ≠ PyOpt.notGiven) :
    cliBody w args modes pycrypto j =
      ([Event.write (orJournal args.decrypt.toFilename
            { j.config with encrypt := false, password := "" }) false j.entries,
        Event.decryptedMsg (orJournal args.decrypt.toFilename
            { j.config with encrypt := false, password := "" })] ++
        (if pyFalsy args.decrypt then [Event.saveConfig false ""] else []),
       { j with config := { j.config with encrypt := false, password := "" } }) := by
  obtain ⟨m1, m2⟩ := modes
  dsimp only at hm1 hm2
  subst hm1; subst hm2; subst hpc
  simp [cliBody, htags, hjson, hmd, he, hd, decryptOp, writeJ]

/-- cliBody in compose mode with no text arguments and empty editor or
prompt input: composing is called off and the invocation falls through
to reading mode, which prints the journal and changes nothing. -/
theorem cliBody_read_empty {w : World} {args : Args} {pycrypto : Bool} {j : JState}
    (modes : Bool × Bool) (hm : modes = (true, false))
    (htext : args.text = []) (hinput : w.inputText = "") :
    cliBody w args modes pycrypto j = ([Event.printJournal], j) := by
  subst hm
  simp [cliBody, htext, hinput]

set_option maxHeartbeats 2000000 in
/-- cliBody never announces a journal file creation: that event belongs
to the touch step alone. -/
theorem cliBody_no_journalCreated (w : World) (args : Args) (modes : Bool × Bool)
    (pycrypto : Bool) (j : JState) (p : String) :
    Event.journalCreated p ∉ (cliBody w args modes pycrypto j).1 := by
  unfold cliBody
  dsimp only
  split_ifs <;>
    simp_all [encryptOp, decryptOp, make_key, writeJ] <;>
    cases j.entries.getLast? <;> simp [writeJ]

/-- Claim C1 (code bug).  The claim says a journal in which some tag has
total count exactly 1 and another a higher count reports only the tags
with count above 1, with a suppression notice.  The source guards the
suppression branch with min(tag_counts)[0] == 0, and a counted tag
always occurs in at least one entry, so the branch never runs: on the
journal where the tag gym occurs in one entry and the tag work in three,
print_tags prints both count lines and no notice, against the claim and
the stated intent of the notice text it would print. -/
theorem print_tags_no_suppression_at_min_count_one :
    printTagsLines [["@gym", "@work"], ["@work"], ["@work"]] =
      [formatTagLine "@gym" 1, formatTagLine "@work" 3] := by decide

/-- Claim C2 (confirmed).  A pair (c, tag) is reported by the tag count
collection exactly when some entry contains the tag and c is the number
of entries whose tag set contains it: per-entry duplicates count once
(the per-entry set is deduplicated) and contributions are summed across
entries. -/
theorem tag_count_is_entry_count (entries : List (List String)) (c : Nat) (tag : String) :
    (c, tag) ∈ tagCounts entries ↔
      (0 < (entries.filter fun e => tag ∈ e).length ∧
        c = (entries.filter fun e => tag ∈ e).length) := by
  unfold tagCounts
  rw [List.mem_dedup, List.mem_map]
  constructor
  · rintro ⟨t, ht, heq⟩
    obtain ⟨hc, htag⟩ := Prod.mk.injEq .. ▸ heq
    subst htag
    refine ⟨filter_length_pos.mpr (mem_journalTags.mp ht), ?_⟩
    rw [← hc, count_journalTags]
  · rintro ⟨hpos, hc⟩
    refine ⟨tag, mem_journalTags.mpr (filter_length_pos.mp hpos), ?_⟩
    rw [count_journalTags, ← hc]

/-- Claim C8 (confirmed).  The pairs the report loop prints come out in
ascending lexicographic order of (count, tag) - lowest count first, ties
broken by tag string order - and a journal with no tags at all prints
exactly the no-tags notice and no tag lines. -/
theorem tag_report_sorted (entries : List (List String)) :
    (reportPairs entries).Pairwise pairLe ∧
      (journalTags entries = [] →
        printTagsLines entries = ["[No tags found in journal.]"]) := by
  constructor
  · unfold reportPairs
    dsimp only
    split_ifs <;> exact sortPairs_pairwise _
  · intro h
    have htc : tagCounts entries = [] := by simp [tagCounts, h]
    simp [printTagsLines, reportPairs, htc, sortPairs]

/-- Witness for C8: the sorted report at a concrete journal, and the
exact no-tags output at the empty journal. -/
theorem tag_report_sorted_witness :
    printTagsLines [] = ["[No tags found in journal.]"] ∧
      (reportPairs [["@gym", "@work"], ["@work"], ["@work"]]).Pairwise pairLe :=
  ⟨(tag_report_sorted []).2 rfl, (tag_report_sorted _).1⟩

/-- Counterexample to claim C3 as stated.  With the crypto library
absent, a plaintext configuration, a bare encrypt request and no journal
file on disk, the invocation first auto-creates the journal file and
only then reports that crypto is unavailable: a journal file is created
before the failure, against the claim that no file is touched or
auto-created first. -/
theorem cli_crypto_error_creates_file_first :
    (cli hdrNonempty false cfgPlain argsEncrypt wAbsent).trace =
      [Event.journalCreated "journal.txt", Event.cryptoUnavailableMsg] := by decide

/-- Claim C3 (corrected).  When the crypto library is absent, the journal
is not configured as encrypted, and an encrypt or decrypt operation is
requested (with the earlier export branches off), the invocation ends
with exactly the crypto-unavailable message - so no write, no prompt and
no configuration save happen - but only after the touch step, which
auto-creates a missing journal file first. -/
theorem cli_crypto_unavailable_after_touch (isHeader : String → Bool)
    (config : Config) (args : Args) (w : World)
    (henc : config.encrypt = false)
    (hgiven : args.encrypt ≠ PyOpt.notGiven ∨ args.decrypt ≠ PyOpt.notGiven)
    (htags : args.tags = false) (hjson : args.json = false)
    (hmd : args.markdown = false) :
    (cli isHeader false config args w).trace =
      (match w.file with
       | none => [Event.journalCreated config.journal]
       | some _ => []) ++ [Event.cryptoUnavailableMsg] := by
  have hexp : exportRequested (effArgs args) := by
    simp only [exportRequested, effArgs_json, effArgs_decrypt, effArgs_encrypt,
      effArgs_markdown, effArgs_tags, effArgs_delete_last]
    tauto
  have hgiven' : (effArgs args).encrypt ≠ PyOpt.notGiven ∨
      (effArgs args).decrypt ≠ PyOpt.notGiven := by
    simpa [effArgs_encrypt, effArgs_decrypt] using hgiven
  rw [cli_run isHeader false config args w (by simp [henc]) (by simp [henc])]
  rw [cliBody_crypto_unavailable (guess_mode (effArgs args) config)
    (by rw [guess_mode_export _ hexp]) (by rw [guess_mode_export _ hexp]) rfl
    hgiven' (by simp [htags]) (by simp [hjson]) (by simp [hmd])]
  cases w.file <;> simp [touch_journal]

/-- Witness for the amended C3: a concrete decrypt request without the
crypto library on an existing plaintext journal reports only the
crypto-unavailable message. -/
theorem cli_crypto_unavailable_after_touch_witness :
    (cli hdrNonempty false cfgPlain argsDecrypt wTwo).trace =
      [Event.cryptoUnavailableMsg] := by
  have h := cli_crypto_unavailable_after_touch hdrNonempty cfgPlain argsDecrypt wTwo
    rfl (Or.inr (by decide)) rfl rfl rfl
  simpa using h

/-- Counterexample to claim C10 as stated.  The limit argument given as 0
is a reading flag that is set, yet Python finds it falsy: guess_mode
keeps compose on, against the claim that compose is off whenever a
reading flag is set. -/
theorem guess_mode_claimed_fails_at_limit_zero :
    ¬ guessModeClaimed argsLimitZero cfgPlain := by decide

/-- Claim C10 (corrected).  Export is chosen exactly when one of the
json, markdown, tags, encrypt, decrypt or delete-last flags is given,
and then compose is off; otherwise compose is off exactly when a reading
argument is truthy (non-empty start or end date, nonzero limit, strict
or short) or the date argument is falsy and the text arguments are
non-empty with every whitespace-separated word beginning with a
configured tag symbol. -/
theorem guess_mode_dispatch (args : Args) (config : Config) :
    ((guess_mode args config).2 = true ↔ exportRequested args) ∧
    (exportRequested args → (guess_mode args config).1 = false) ∧
    (¬ exportRequested args →
      ((guess_mode args config).1 = false ↔
        (readingTruthy args ∨ tagsOnlyText args config))) := by
  unfold guess_mode
  split_ifs with h1 h2 h3 <;> simp_all

/-- Witness for the amended C10 at a concrete command line: with only the
limit argument given as 0, compose stays on since no reading argument is
truthy and the text arguments are empty. -/
theorem guess_mode_dispatch_witness :
    (guess_mode argsLimitZero cfgPlain).1 = false ↔
      (readingTruthy argsLimitZero ∨ tagsOnlyText argsLimitZero cfgPlain) :=
  (guess_mode_dispatch argsLimitZero cfgPlain).2.2 (by decide)

/-- Claim C4 (confirmed).  With delete-last requested (and the earlier
export branches off), a non-empty loaded store has its last entry - the
chronologically last, the sequence being kept in ascending timestamp
order - removed, announced and the remaining entries rewritten; an empty
loaded store makes the pop fail, nothing is written, and the in-memory
entries stay empty. -/
theorem cli_delete_last_spec (isHeader : String → Bool) (pycrypto : Bool)
    (config : Config) (args : Args) (w : World)
    (hpc : config.encrypt = true → pycrypto = true)
    (hauth : config.encrypt = true → w.passwordCorrect = true)
    (hdl : args.delete_last = true)
    (htags : args.tags = false) (hjson : args.json = false) (hmd : args.markdown = false)
    (he : args.encrypt = PyOpt.notGiven) (hd : args.decrypt = PyOpt.notGiven) :
    ((cli isHeader pycrypto config args w).loaded ≠ [] →
      (cli isHeader pycrypto config args w).journal =
        some { entries := (cli isHeader pycrypto config args w).loaded.dropLast,
               config := config, keyPassword := none } ∧
      Event.deletedEntry
          (((cli isHeader pycrypto config args w).loaded.getLast?).getD "")
        ∈ (cli isHeader pycrypto config args w).trace ∧
      Event.write config.journal config.encrypt
          ((cli isHeader pycrypto config args w).loaded.dropLast)
        ∈ (cli isHeader pycrypto config args w).trace) ∧
    ((cli isHeader pycrypto config args w).loaded = [] →
      Event.emptyPopError ∈ (cli isHeader pycrypto config args w).trace ∧
      (cli isHeader pycrypto config args w).journal =
        some { entries := [], config := config, keyPassword := none } ∧
      ∀ p b es, Event.write p b es ∉ (cli isHeader pycrypto config args w).trace) := by
  have hexp : exportRequested (effArgs args) := by
    simp only [exportRequested, effArgs_json, effArgs_decrypt, effArgs_encrypt,
      effArgs_markdown, effArgs_tags, effArgs_delete_last, hdl]
    tauto
  rw [cli_run isHeader pycrypto config args w hpc hauth]
  rw [cliBody_delete_last (guess_mode (effArgs args) config)
    (by rw [guess_mode_export _ hexp]) (by rw [guess_mode_export _ hexp])
    (by simp [htags]) (by simp [hjson]) (by simp [hmd])
    (by simp [he]) (by simp [hd]) (by simp [hdl])]
  dsimp only
  cases hl : (parse isHeader (((touch_journal w.file config.journal).2).getD "")).getLast? with
  | none =>
    have hnil : parse isHeader (((touch_journal w.file config.journal).2).getD "") = [] := by
      cases hp : parse isHeader (((touch_journal w.file config.journal).2).getD "") with
      | nil => rfl
      | cons a l => rw [hp] at hl; simp [List.getLast?_concat] at hl
    constructor
    · intro hne; exact absurd hnil hne
    · intro _
      refine ⟨by simp, by simp [hnil], ?_⟩
      intro p b es
      simp only [List.mem_append]
      rintro (h | h)
      · exact touch_no_write _ _ _ _ _ h
      · simp at h
  | some last =>
    have hne : parse isHeader (((touch_journal w.file config.journal).2).getD "") ≠ [] := by
      intro h; rw [h] at hl; simp at hl
    constructor
    · intro _
      refine ⟨rfl, by simp [hl], by simp⟩
    · intro h; exact absurd h hne

/-- Witness for C4: on a two-entry store delete-last announces the last
entry; on the empty store it fails with the empty-pop error. -/
theorem cli_delete_last_spec_witness :
    Event.deletedEntry "b" ∈ (cli hdrNonempty true cfgPlain argsDeleteLast wTwo).trace ∧
    Event.emptyPopError ∈ (cli hdrNonempty true cfgPlain argsDeleteLast wAbsent).trace := by
  constructor
  · exact ((cli_delete_last_spec hdrNonempty true cfgPlain argsDeleteLast wTwo
      (by decide) (by decide) rfl rfl rfl rfl rfl rfl).1 (by decide)).2.1
  · exact ((cli_delete_last_spec hdrNonempty true cfgPlain argsDeleteLast wAbsent
      (by decide) (by decide) rfl rfl rfl rfl rfl rfl).2 (by decide)).1

/-- Claim C5 (confirmed, parse modelled from the spec).  When the journal
file is absent, loading never fails: the touch step announces and
creates an empty file and the loaded entry sequence is empty; when the
file exists, the touch step leaves its contents untouched and announces
nothing. -/
theorem cli_missing_file_auto_created (isHeader : String → Bool) (pycrypto : Bool)
    (config : Config) (args : Args) (w : World)
    (hpc : config.encrypt = true → pycrypto = true)
    (hauth : config.encrypt = true → w.passwordCorrect = true) :
    (w.file = none →
      Event.journalCreated config.journal ∈ (cli isHeader pycrypto config args w).trace ∧
      (cli isHeader pycrypto config args w).loaded = [] ∧
      (cli isHeader pycrypto config args w).fileAfterTouch = some "") ∧
    (∀ c, w.file = some c →
      (∀ p, Event.journalCreated p ∉ (cli isHeader pycrypto config args w).trace) ∧
      (cli isHeader pycrypto config args w).fileAfterTouch = some c) := by
  rw [cli_run isHeader pycrypto config args w hpc hauth]
  constructor
  · intro hw
    rw [hw]
    exact ⟨by simp [touch_journal], by simp [touch_journal, parse], rfl⟩
  · intro c hw
    rw [hw]
    refine ⟨?_, rfl⟩
    intro p
    simpa [touch_journal] using
      cliBody_no_journalCreated w (effArgs args) (guess_mode (effArgs args) config)
        pycrypto ⟨parse isHeader (((touch_journal (some c) config.journal).2).getD ""),
          config, none⟩ p

/-- Witness for C5: a missing journal file is created and loads as the
empty sequence; an existing file passes the touch step unchanged. -/
theorem cli_missing_file_auto_created_witness :
    (Event.journalCreated "journal.txt"
        ∈ (cli hdrNonempty true cfgPlain argsNone wAbsent).trace ∧
      (cli hdrNonempty true cfgPlain argsNone wAbsent).loaded = []) ∧
    (cli hdrNonempty true cfgPlain argsNone wTwo).fileAfterTouch = some "a\nb" := by
  refine ⟨⟨?_, ?_⟩, ?_⟩
  · exact ((cli_missing_file_auto_created hdrNonempty true cfgPlain argsNone wAbsent
      (by decide) (by decide)).1 rfl).1
  · exact ((cli_missing_file_auto_created hdrNonempty true cfgPlain argsNone wAbsent
      (by decide) (by decide)).1 rfl).2.1
  · exact ((cli_missing_file_auto_created hdrNonempty true cfgPlain argsNone wTwo
      (by decide) (by decide)).2 "a\nb" rfl).2

/-- Claim C6 (confirmed, make_key and write modelled from the spec).  On
the plaintext-to-encrypted transition the stored password is cleared
before key derivation, the new-password prompt always fires, the key is
derived from the freshly prompted password - whatever password material
was stored before - and the store is rewritten through write with the
encryption flag set. -/
theorem cli_encrypt_prompts_new_password (isHeader : String → Bool) (config : Config)
    (args : Args) (w : World)
    (henc : config.encrypt = false)
    (he : args.encrypt ≠ PyOpt.notGiven)
    (htags : args.tags = false) (hjson : args.json = false)
    (hmd : args.markdown = false) :
    Event.promptPassword "Enter new password:" ∈ (cli isHeader true config args w).trace ∧
    (cli isHeader true config args w).journal =
      some { entries := (cli isHeader true config args w).loaded,
             config := { config with encrypt := true, password := "" },
             keyPassword := some w.promptedPassword } ∧
    Event.write
        (orJournal args.encrypt.toFilename { config with encrypt := true, password := "" })
        true (cli isHeader true config args w).loaded
      ∈ (cli isHeader true config args w).trace := by
  have hexp : exportRequested (effArgs args) := by
    simp only [exportRequested, effArgs_json, effArgs_decrypt, effArgs_encrypt,
      effArgs_markdown, effArgs_tags, effArgs_delete_last]
    tauto
  rw [cli_run isHeader true config args w (by simp) (by simp [henc])]
  rw [cliBody_encrypt (guess_mode (effArgs args) config)
    (by rw [guess_mode_export _ hexp]) (by rw [guess_mode_export _ hexp]) rfl
    (by simp [htags]) (by simp [hjson]) (by simp [hmd]) (by simpa using he)]
  dsimp only
  refine ⟨by simp, rfl, by simp⟩

/-- Witness for C6: the bare encrypt request on a plaintext journal
prompts for a new password. -/
theorem cli_encrypt_prompts_new_password_witness :
    Event.promptPassword "Enter new password:"
      ∈ (cli hdrNonempty true cfgPlain argsEncrypt wTwo).trace :=
  (cli_encrypt_prompts_new_password hdrNonempty cfgPlain argsEncrypt wTwo
    rfl (by decide) rfl rfl rfl).1

/-- Claim C7 (confirmed, write modelled from the spec).  On a successful
encrypted-to-plaintext transition the in-memory flag and password are
cleared; decrypting in place (falsy filename) also saves the persisted
configuration with the flag cleared and empty password, while decrypting
to a separate file saves no configuration at all. -/
theorem cli_decrypt_updates_saved_config (isHeader : String → Bool) (config : Config)
    (args : Args) (w : World)
    (_henc : config.encrypt = true) (hauth : w.passwordCorrect = true)
    (hd : args.decrypt ≠ PyOpt.notGiven) (he : args.encrypt = PyOpt.notGiven)
    (htags : args.tags = false) (hjson : args.json = false)
    (hmd : args.markdown = false) :
    (cli isHeader true config args w).journal =
      some { entries := (cli isHeader true config args w).loaded,
             config := { config with encrypt := false, password := "" },
             keyPassword := none } ∧
    (pyFalsy args.decrypt = true →
      Event.saveConfig false "" ∈ (cli isHeader true config args w).trace) ∧
    (pyFalsy args.decrypt = false →
      ∀ b p, Event.saveConfig b p ∉ (cli isHeader true config args w).trace) := by
  have hexp : exportRequested (effArgs args) := by
    simp only [exportRequested, effArgs_json, effArgs_decrypt, effArgs_encrypt,
      effArgs_markdown, effArgs_tags, effArgs_delete_last]
    tauto
  rw [cli_run isHeader true config args w (by simp) (by simp [hauth])]
  rw [cliBody_decrypt (guess_mode (effArgs args) config)
    (by rw [guess_mode_export _ hexp]) (by rw [guess_mode_export _ hexp]) rfl
    (by simp [htags]) (by simp [hjson]) (by simp [hmd])
    (by simpa using he) (by simpa using hd)]
  dsimp only
  refine ⟨rfl, ?_, ?_⟩
  · intro hf
    simp [effArgs_decrypt, hf]
  · intro hf b p
    simp only [List.mem_append]
    rintro (h | h)
    · exact touch_no_saveConfig _ _ _ _ h
    · simp [effArgs_decrypt, hf] at h

/-- Witness for C7: the bare decrypt request saves the cleared
configuration; decrypting to a separate file saves none. -/
theorem cli_decrypt_updates_saved_config_witness :
    Event.saveConfig false "" ∈ (cli hdrNonempty true cfgEnc argsDecrypt wTwo).trace ∧
    Event.saveConfig false "" ∉ (cli hdrNonempty true cfgEnc argsDecryptFile wTwo).trace := by
  constructor
  · exact (cli_decrypt_updates_saved_config hdrNonempty cfgEnc argsDecrypt wTwo
      rfl rfl (by decide) rfl rfl rfl rfl).2.1 rfl
  · exact (cli_decrypt_updates_saved_config hdrNonempty cfgEnc argsDecryptFile wTwo
      rfl rfl (by decide) rfl rfl rfl rfl).2.2 rfl false ""

/-- Claim C9 (confirmed, filtering modelled from the spec as a read-only
view).  In compose mode with no text arguments, when the editor or
prompt yields empty text, no entry is created, nothing is ever written
to disk, and the in-memory entry sequence stays the loaded one. -/
theorem cli_compose_empty_input (isHeader : String → Bool) (pycrypto : Bool)
    (config : Config) (args : Args) (w : World)
    (hpc : config.encrypt = true → pycrypto = true)
    (hauth : config.encrypt = true → w.passwordCorrect = true)
    (htext : args.text = []) (hinput : w.inputText = "")
    (hmode : guess_mode args config = (true, false)) :
    (∀ p b es, Event.write p b es ∉ (cli isHeader pycrypto config args w).trace) ∧
    Event.entryAdded ∉ (cli isHeader pycrypto config args w).trace ∧
    (cli isHeader pycrypto config args w).journal =
      some { entries := (cli isHeader pycrypto config args w).loaded,
             config := config, keyPassword := none } := by
  have heff : effArgs args = args := by simp [effArgs, htext]
  rw [cli_run isHeader pycrypto config args w hpc hauth]
  rw [heff, hmode]
  rw [cliBody_read_empty (true, false) rfl htext hinput]
  dsimp only
  refine ⟨?_, ?_, rfl⟩
  · intro p b es
    simp only [List.mem_append]
    rintro (h | h)
    · exact touch_no_write _ _ _ _ _ h
    · simp at h
  · simp only [List.mem_append]
    rintro (h | h)
    · exact touch_no_entryAdded _ _ h
    · simp at h

/-- Witness for C9: a bare invocation with empty prompt input adds no
entry. -/
theorem cli_compose_empty_input_witness :
    Event.entryAdded ∉ (cli hdrNonempty true cfgPlain argsNone wTwo).trace :=
  (cli_compose_empty_input hdrNonempty true cfgPlain argsNone wTwo
    (by decide) (by decide) rfl rfl (by decide)).2.1

end Jrnl
